import Mathlib

/-
  Shallow embedding of the dist-task framework coordination store
  (pkg/disttask/framework/storage/task_table.go).

  The relational store (four logical tables plus the node registry) is
  modelled as lists of typed rows; each operation of TaskManager is a pure
  function on the store.  SQL conditional updates become list maps guarded
  by the decidable row predicate of the WHERE clause; the affected-row
  count becomes countP of the same predicate.  CURRENT_TIMESTAMP and
  unix_timestamp are passed in as an explicit `now` parameter.
-/

namespace DistTaskStorage

/-- Task states (the proto.TaskState string constants used by task_table.go). -/
inductive TaskState where
  | pending
  | running
  | succeed
  | failed
  | reverting
  | reverted
  | cancelling
  | pausing
  | paused
  | resuming
deriving DecidableEq, Repr

/-- Subtask states (the proto.SubtaskState string constants used by task_table.go). -/
inductive SubtaskState where
  | pending
  | running
  | succeed
  | failed
  | canceled
  | paused
  | revertPending
deriving DecidableEq, Repr

/-- Modelled from the spec: the Error Codec (pingcap/errors Normalize /
UnmarshalJSON, external to src).  Stored error bytes are either a
well-formed serialization of a normalized error message, empty bytes, or
malformed bytes that fail to deserialize. -/
inductive ErrBytes where
  | wellFormed (msg : String)
  | empty
  | malformed (raw : String)
deriving DecidableEq, Repr

/-- Modelled from the spec: deserializing stored error bytes succeeds
exactly on well-formed bytes (UnmarshalJSON on a normalized error). -/
def unmarshalErr : ErrBytes → Option String
  | .wellFormed msg => some msg
  | .empty => none
  | .malformed _ => none

/-- The raw stored bytes viewed as a plain string (string(errBytes) in Go). -/
def ErrBytes.asString : ErrBytes → String
  | .wellFormed msg => msg
  | .empty => ""
  | .malformed raw => raw

/-- An in-memory error value carried by a task after a read: either the
structured value recovered by the codec, or the plain-text wrapping of
bytes that failed to deserialize (errors.New(string(errBytes))). -/
inductive TaskErr where
  | structured (msg : String)
  | plain (raw : String)
deriving DecidableEq, Repr

/-- The serializeErr function of task_table.go: a nil error stores NULL,
otherwise the error is normalized and marshalled to well-formed bytes. -/
def serializeErr : Option TaskErr → Option ErrBytes
  | none => none
  | some (.structured msg) => some (.wellFormed msg)
  | some (.plain raw) => some (.wellFormed raw)

/-- One row of mysql.tidb_global_task (and of its history table). -/
structure TaskRow where
  id : Int
  key : String
  taskType : String
  state : TaskState
  step : Int
  priority : Int
  concurrency : Int
  createTime : Nat
  startTime : Option Nat
  stateUpdateTime : Option Nat
  meta : List Nat
  schedulerID : String
  error : Option ErrBytes
deriving DecidableEq, Repr

/-- The in-memory proto.Task produced by row2Task / row2TaskBasic. -/
structure Task where
  id : Int
  key : String
  taskType : String
  state : TaskState
  step : Int
  priority : Int
  concurrency : Int
  createTime : Nat
  startTime : Option Nat
  stateUpdateTime : Option Nat
  meta : List Nat
  schedulerID : String
  error : Option TaskErr
deriving DecidableEq, Repr

/-- One row of mysql.tidb_background_subtask (and of its history table). -/
structure SubtaskRow where
  id : Int
  step : Int
  taskKey : Int
  subtaskType : Int
  execID : String
  state : SubtaskState
  concurrency : Int
  createTime : Nat
  ordinal : Option Int
  startTime : Option Nat
  stateUpdateTime : Option Nat
  meta : List Nat
  summary : String
  error : Option ErrBytes
deriving DecidableEq, Repr

/-- The in-memory proto.Subtask passed to insertSubtasks and friends. -/
structure Subtask where
  id : Int
  step : Int
  taskID : Int
  subtaskType : Int
  execID : String
  state : SubtaskState
  concurrency : Int
  createTime : Nat
  ordinal : Option Int
  startTime : Option Nat
  updateTime : Option Nat
  meta : List Nat
  summary : String
deriving DecidableEq, Repr

/-- One row of mysql.dist_framework_meta. -/
structure ManagedNode where
  id : String
  role : String
  cpuCount : Int
deriving DecidableEq, Repr

/-- The shared relational store: live and history tables for tasks and
subtasks, the node registry, and the auto-increment counters. -/
structure Store where
  tasks : List TaskRow
  taskHistory : List TaskRow
  subtasks : List SubtaskRow
  subtaskHistory : List SubtaskRow
  nodes : List ManagedNode
  nextTaskID : Int
  nextSubtaskID : Int
deriving DecidableEq, Repr

/-- Errors surfaced by TaskManager operations (the error values defined in
task_table.go plus the admission-control errors). -/
inductive TMError where
  | taskNotFound
  | subtaskNotFound
  | taskAlreadyExists
  | unstableSubtasks (expected got : Nat)
  | noManagedNodes
  | noUsableCapacity
  | concurrencyExceedsCapacity (c k : Int)
  | invalidTaskStateTransform
deriving DecidableEq, Repr

/-- The WithNewTxn wrapper: run the body against the store; on error roll
the transaction back (the original store is kept), on success commit. -/
def withNewTxn (st : Store) (fn : Store → Store × Option TMError) : Store × Option TMError :=
  match fn st with
  | (_, some e) => (st, some e)
  | (st', none) => (st', none)

/-- The literal string of an empty JSON object, used for the summary and
checkpoint columns on insert. -/
def emptyJSON : String := "\x7b\x7d"

/-- The maxSubtaskBatchSize variable: 16 MiB. -/
def maxSubtaskBatchSize : Nat := 16 * 1024 * 1024

/-- The splitSubtasks loop body, with the accumulated current batch and its
byte size made explicit.  Mirrors the Go loop: when the next subtask would
push the running size over maxSize the current batch is flushed (even when
it is empty) and a fresh batch is started. -/
def splitSubtasksAux (maxSize : Nat) (curr : List Subtask) (size : Nat) :
    List Subtask → List (List Subtask)
  | [] => if curr.length > 0 then [curr] else []
  | s :: rest =>
    if size + s.meta.length > maxSize then
      curr :: splitSubtasksAux maxSize [s] s.meta.length rest
    else
      splitSubtasksAux maxSize (curr ++ [s]) (size + s.meta.length) rest

/-- The splitSubtasks method: split a subtask list into batches whose Meta
byte sizes fit under min(TxnTotalSizeLimit, maxSubtaskBatchSize).  The
configured kv.TxnTotalSizeLimit is passed in as txnLimit. -/
def splitSubtasks (txnLimit : Nat) (subtasks : List Subtask) : List (List Subtask) :=
  splitSubtasksAux (min txnLimit maxSubtaskBatchSize) [] 0 subtasks

/-- The row inserted for one subtask by insertSubtasks: state pending,
create_time now, empty-JSON checkpoint and summary, remaining columns NULL;
the id comes from the auto-increment counter. -/
def subtaskInsertRow (now : Nat) (id : Int) (s : Subtask) : SubtaskRow :=
  { id := id
    step := s.step
    taskKey := s.taskID
    subtaskType := s.subtaskType
    execID := s.execID
    state := .pending
    concurrency := s.concurrency
    createTime := now
    ordinal := s.ordinal
    startTime := none
    stateUpdateTime := none
    meta := s.meta
    summary := emptyJSON
    error := none }

/-- The rows appended by one bulk insert of subtasks, with auto-increment
ids assigned sequentially from nextID. -/
def insertRows (now : Nat) (nextID : Int) : List Subtask → List SubtaskRow
  | [] => []
  | s :: rest => subtaskInsertRow now nextID s :: insertRows now (nextID + 1) rest

/-- The insertSubtasks method: no-op on an empty list, otherwise one bulk
insert of all given subtasks in state pending. -/
def insertSubtasks (now : Nat) (subs : List Subtask) (st : Store) : Store :=
  if subs.isEmpty then st
  else
    { st with
      subtasks := st.subtasks ++ insertRows now st.nextSubtaskID subs
      nextSubtaskID := st.nextSubtaskID + subs.length }

/-- The WHERE clause of updateTaskStateStep:
id = task.ID AND state = task.State AND step = task.Step. -/
def taskStepMatch (t : Task) (r : TaskRow) : Bool :=
  decide (r.id = t.id ∧ r.state = t.state ∧ r.step = t.step)

/-- The SET clause of updateTaskStateStep applied to one matching row:
new state and step, meta from the in-memory task, refreshed update time,
and start_time stamped when the task is leaving pending. -/
def applyTaskStepUpdate (now : Nat) (t : Task) (nextState : TaskState) (nextStep : Int)
    (r : TaskRow) : TaskRow :=
  { r with
    state := nextState
    step := nextStep
    meta := t.meta
    stateUpdateTime := some now
    startTime := if t.state = .pending then some now else r.startTime }

/-- The updateTaskStateStep method: the conditional update of the task row
predicated on (id, state, step), returning the new store and the
affected-row count.  Affected rows follow the changed-rows semantics of
the store: a matched row counts only when the update actually changes it. -/
def updateTaskStateStep (now : Nat) (t : Task) (nextState : TaskState) (nextStep : Int)
    (st : Store) : Store × Nat :=
  ({ st with
     tasks := st.tasks.map fun r =>
       if taskStepMatch t r then applyTaskStepUpdate now t nextState nextStep r else r },
   st.tasks.countP fun r =>
     taskStepMatch t r && decide (applyTaskStepUpdate now t nextState nextStep r ≠ r))

/-- The SwitchTaskStep method: inside one transaction, conditionally move
the task row to (nextState, nextStep); if zero rows were affected commit
with no further writes, otherwise bulk-insert the given subtasks as
pending. -/
def SwitchTaskStep (now : Nat) (t : Task) (nextState : TaskState) (nextStep : Int)
    (subs : List Subtask) (st : Store) : Store × Option TMError :=
  withNewTxn st fun s =>
    if (updateTaskStateStep now t nextState nextStep s).2 = 0 then
      ((updateTaskStateStep now t nextState nextStep s).1, none)
    else
      (insertSubtasks now subs (updateTaskStateStep now t nextState nextStep s).1, none)

/-- The `select count(1)` statement of SwitchTaskStepInBatch: how many
subtask rows are already persisted for (task, nextStep). -/
def existingSubtaskCnt (taskID nextStep : Int) (st : Store) : Nat :=
  st.subtasks.countP fun r => decide (r.taskKey = taskID ∧ r.step = nextStep)

/-- The SwitchTaskStepInBatch method: count the subtask rows already
persisted for (task, nextStep); fail with UnstableSubtasks when that count
exceeds the given list, otherwise skip the first existingCnt entries,
insert the rest in size-bounded batches, and finally run the same
conditional updateTaskStateStep without checking its affected rows.
Runs in a plain session (no wrapping transaction). -/
def SwitchTaskStepInBatch (now : Nat) (t : Task) (nextState : TaskState) (nextStep : Int)
    (subs : List Subtask) (txnLimit : Nat) (st : Store) : Store × Option TMError :=
  if existingSubtaskCnt t.id nextStep st > subs.length then
    (st, some (.unstableSubtasks subs.length (existingSubtaskCnt t.id nextStep st)))
  else
    ((updateTaskStateStep now t nextState nextStep
        ((splitSubtasks txnLimit (subs.drop (existingSubtaskCnt t.id nextStep st))).foldl
          (fun acc b => insertSubtasks now b acc) st)).1,
     none)

/-- The SET clause of StartSubtask applied to one matching row. -/
def applyStartSubtask (now : Nat) (r : SubtaskRow) : SubtaskRow :=
  { r with state := .running, startTime := some now, stateUpdateTime := some now }

/-- The StartSubtask method: inside one transaction, set the subtask to
running with fresh start and update times, predicated only on
(id = subtaskID AND exec_id = execID); zero affected rows is turned into
ErrSubtaskNotFound.  Affected rows follow the changed-rows semantics of
the store: a matched row counts only when the update actually changes it. -/
def StartSubtask (now : Nat) (subtaskID : Int) (execID : String) (st : Store) :
    Store × Option TMError :=
  withNewTxn st fun s =>
    if (s.subtasks.countP fun r =>
          (decide (r.id = subtaskID ∧ r.execID = execID)) &&
            decide (applyStartSubtask now r ≠ r)) = 0 then
      ({ s with
         subtasks := s.subtasks.map fun r =>
           if r.id = subtaskID ∧ r.execID = execID then applyStartSubtask now r else r },
       some .subtaskNotFound)
    else
      ({ s with
         subtasks := s.subtasks.map fun r =>
           if r.id = subtaskID ∧ r.execID = execID then applyStartSubtask now r else r },
       none)

/-- The row2TaskBasic function: decode the basic task columns, leaving the
remaining fields at their zero values. -/
def row2TaskBasic (r : TaskRow) : Task :=
  { id := r.id
    key := r.key
    taskType := r.taskType
    state := r.state
    step := r.step
    priority := r.priority
    concurrency := r.concurrency
    createTime := r.createTime
    startTime := none
    stateUpdateTime := none
    meta := []
    schedulerID := ""
    error := none }

/-- The row2Task function: decode the full column set; stored error bytes
that fail to deserialize degrade to a plain-text wrapped error value
instead of failing the decode. -/
def row2Task (r : TaskRow) : Task :=
  { row2TaskBasic r with
    startTime := r.startTime
    stateUpdateTime := r.stateUpdateTime
    meta := r.meta
    schedulerID := r.schedulerID
    error :=
      match r.error with
      | none => none
      | some b =>
        match unmarshalErr b with
        | some msg => some (.structured msg)
        | none => some (.plain b.asString) }

/-- The loop of CollectSubTaskError over the selected rows: NULL or empty
error bytes contribute a nil entry, well-formed bytes contribute the
deserialized error, and malformed bytes abort the whole read with the
deserialization error. -/
def collectErrs : List SubtaskRow → Except String (List (Option TaskErr))
  | [] => .ok []
  | r :: rest =>
    match r.error with
    | none => (collectErrs rest).map (none :: ·)
    | some b =>
      if b = .empty then (collectErrs rest).map (none :: ·)
      else
        match unmarshalErr b with
        | none => .error "unmarshal subtask error"
        | some msg => (collectErrs rest).map (some (.structured msg) :: ·)

/-- The CollectSubTaskError method: read the error column of every subtask
of the task in state failed or canceled. -/
def CollectSubTaskError (taskID : Int) (st : Store) : Except String (List (Option TaskErr)) :=
  collectErrs (st.subtasks.filter fun r =>
    decide (r.taskKey = taskID ∧ (r.state = .failed ∨ r.state = .canceled)))

/-- Modelled from the spec: the maximum-concurrent-task constant
(proto.MaxConcurrentTask, not part of src).  The spec fixes the query
limit of GetTopUnfinishedTasks to a fixed multiple (two) of it. -/
def MaxConcurrentTask : Nat := 16

/-- The state list of the GetTopUnfinishedTasks query, exactly as written
in its IN clause. -/
def topUnfinishedStates : List TaskState :=
  [.pending, .running, .reverting, .cancelling, .pausing, .resuming]

/-- The ORDER BY key of the scheduling queries:
priority asc, create_time asc, id asc. -/
def taskOrderLE (a b : TaskRow) : Bool :=
  decide (a.priority < b.priority ∨
    (a.priority = b.priority ∧ (a.createTime < b.createTime ∨
      (a.createTime = b.createTime ∧ a.id ≤ b.id))))

/-- The GetTopUnfinishedTasks method: the tasks in the six queried states,
ordered by (priority, create_time, id) ascending, limited to twice
MaxConcurrentTask, decoded with the basic columns. -/
def GetTopUnfinishedTasks (st : Store) : List Task :=
  ((((st.tasks.filter fun r => decide (r.state ∈ topUnfinishedStates)).mergeSort
    taskOrderLE).take (MaxConcurrentTask * 2)).map row2TaskBasic)

/-- The getAllNodesWithSession method: all registry rows ordered by host
ascending. -/
def getAllNodes (st : Store) : List ManagedNode :=
  st.nodes.mergeSort fun a b => decide (a.id ≤ b.id)

/-- The getManagedNodesWithSession method: the nodes with role
"background" when any exist, otherwise the nodes with empty role. -/
def getManagedNodes (st : Store) : List ManagedNode :=
  if ((getAllNodes st).filter fun n => decide (n.role = "background")).isEmpty then
    (getAllNodes st).filter fun n => decide (n.role = "")
  else
    (getAllNodes st).filter fun n => decide (n.role = "background")

/-- The getCPUCountOfManagedNode method: the CPU count of the first
managed node with a positive count; no managed nodes and no usable
capacity are distinct errors. -/
def getCPUCountOfManagedNode (st : Store) : Except TMError Int :=
  if (getManagedNodes st).isEmpty then .error .noManagedNodes
  else
    match (getManagedNodes st).find? fun n => decide (n.cpuCount > 0) with
    | none => .error .noUsableCapacity
    | some n => .ok n.cpuCount

/-- Modelled from the spec: the initial step sentinel (proto.StepInit, not
part of src; the spec calls it the initial "step 0" before any real step). -/
def StepInit : Int := 0

/-- Modelled from the spec: the normal priority constant
(proto.NormalPriority, not part of src; CreateTask inserts with it). -/
def NormalPriority : Int := 512

/-- The row inserted by CreateTaskWithSession: state pending, the initial
step, normal priority, the requested concurrency and meta. -/
def createTaskRow (now : Nat) (key taskType : String) (concurrency : Int) (meta : List Nat)
    (id : Int) : TaskRow :=
  { id := id
    key := key
    taskType := taskType
    state := .pending
    step := StepInit
    priority := NormalPriority
    concurrency := concurrency
    createTime := now
    startTime := none
    stateUpdateTime := none
    meta := meta
    schedulerID := ""
    error := none }

/-- The CreateTaskWithSession method: admission control against the
capacity of the managed nodes, then a single insert of a pending task at
the initial step, returning the assigned id. -/
def CreateTaskWithSession (now : Nat) (key taskType : String) (concurrency : Int)
    (meta : List Nat) (st : Store) : Except TMError (Store × Int) :=
  match getCPUCountOfManagedNode st with
  | .error e => .error e
  | .ok cpuCount =>
    if concurrency > cpuCount then .error (.concurrencyExceedsCapacity concurrency cpuCount)
    else
      .ok ({ st with
             tasks := st.tasks ++ [createTaskRow now key taskType concurrency meta st.nextTaskID]
             nextTaskID := st.nextTaskID + 1 }, st.nextTaskID)

/-- The WHERE clause of the task update in UpdateTaskAndAddSubTasks:
id = task.ID AND state = prevState. -/
def legacyHit (t : Task) (prevState : TaskState) (r : TaskRow) : Bool :=
  decide (r.id = t.id ∧ r.state = prevState)

/-- The SET clause of the task update in UpdateTaskAndAddSubTasks. -/
def applyLegacyUpdate (now : Nat) (t : Task) (r : TaskRow) : TaskRow :=
  { r with
    state := t.state
    schedulerID := t.schedulerID
    step := t.step
    concurrency := t.concurrency
    meta := t.meta
    error := serializeErr t.error
    stateUpdateTime := some now }

/-- The row inserted for one subtask by UpdateTaskAndAddSubTasks: chosen
state, task id taken from the task, NULL ordinal. -/
def legacySubtaskRow (now : Nat) (sState : SubtaskState) (taskID : Int) (id : Int)
    (s : Subtask) : SubtaskRow :=
  { id := id
    step := s.step
    taskKey := taskID
    subtaskType := s.subtaskType
    execID := s.execID
    state := sState
    concurrency := s.concurrency
    createTime := now
    ordinal := none
    startTime := none
    stateUpdateTime := none
    meta := s.meta
    summary := emptyJSON
    error := none }

/-- The rows of the bulk insert of UpdateTaskAndAddSubTasks. -/
def legacyInsertRows (now : Nat) (sState : SubtaskState) (taskID : Int) (nextID : Int) :
    List Subtask → List SubtaskRow
  | [] => []
  | s :: rest =>
    legacySubtaskRow now sState taskID nextID s ::
      legacyInsertRows now sState taskID (nextID + 1) rest

/-- The UpdateTaskAndAddSubTasks method, modelled statement by statement
inside its transaction.  inTest mirrors intest.InTest; insertOK is the
store-level outcome of the bulk subtask insert statement (false = the
statement fails and has no effect).  Note the code reads
`if err != nil \x7b return nil \x7d` after that insert: a failing insert
is swallowed and the transaction still commits the task-row update.
Returns (store, retryable, error). -/
def UpdateTaskAndAddSubTasks (now : Nat) (inTest insertOK : Bool) (t : Task)
    (subs : List Subtask) (prevState : TaskState) (st : Store) :
    Store × Bool × Option TMError :=
  let affected := st.tasks.countP fun r =>
    legacyHit t prevState r && decide (applyLegacyUpdate now t r ≠ r)
  let st1 := { st with
    tasks := st.tasks.map fun r =>
      if legacyHit t prevState r then applyLegacyUpdate now t r else r }
  let zeroFatal := affected == 0 &&
    (!inTest || !(st1.tasks.any (legacyHit t prevState)))
  if zeroFatal then
    (st, false, some .invalidTaskStateTransform)
  else if subs.length > 0 then
    if insertOK then
      let sState := if t.state = .reverting then SubtaskState.revertPending
                    else SubtaskState.pending
      ({ st1 with
         subtasks := st1.subtasks ++ legacyInsertRows now sState t.id st1.nextSubtaskID subs
         nextSubtaskID := st1.nextSubtaskID + subs.length }, true, none)
    else
      (st1, true, none)
  else
    (st1, true, none)

/-- The TransferSubtasks2HistoryWithSession method: copy every live
subtask row of the task into the history table, then delete them from the
live table. -/
def TransferSubtasks2HistoryWithSession (taskID : Int) (st : Store) : Store :=
  { st with
    subtaskHistory := st.subtaskHistory ++ st.subtasks.filter fun r => decide (r.taskKey = taskID)
    subtasks := st.subtasks.filter fun r => decide (r.taskKey ≠ taskID) }

/-- The per-row effect of the meta-refresh update statement of
TransferTasks2History: the row with the task's id gets the in-memory meta
(sensitive data may have been redacted) and a fresh update time. -/
def refreshMetaRow (now : Nat) (t : Task) (row : TaskRow) : TaskRow :=
  if row.id = t.id then { row with meta := t.meta, stateUpdateTime := some now } else row

/-- The TransferTasks2History method: inside one transaction, refresh each
task row's meta from the in-memory task, copy the matching task rows into
the history table, delete them from the live table, and cascade the same
copy and delete to each task's subtasks. -/
def TransferTasks2History (now : Nat) (tasks : List Task) (st : Store) :
    Store × Option TMError :=
  if tasks.isEmpty then (st, none)
  else
    withNewTxn st fun s =>
      let ids := tasks.map (·.id)
      let s1 := tasks.foldl (fun acc t =>
        { acc with tasks := acc.tasks.map (refreshMetaRow now t) }) s
      let s2 := { s1 with
        taskHistory := s1.taskHistory ++ s1.tasks.filter fun r => decide (r.id ∈ ids)
        tasks := s1.tasks.filter fun r => decide (r.id ∉ ids) }
      (tasks.foldl (fun acc t => TransferSubtasks2HistoryWithSession t.id acc) s2, none)

/-- The GetTaskByID method: first live row with the id, decoded by
row2Task; no row is ErrTaskNotFound. -/
def GetTaskByID (taskID : Int) (st : Store) : Except TMError Task :=
  match st.tasks.find? fun r => decide (r.id = taskID) with
  | none => .error .taskNotFound
  | some r => .ok (row2Task r)

/-- The GetTaskByIDWithHistory method: the union of the live and history
rows with the id (live rows first), decoded by row2Task; no row at all is
ErrTaskNotFound. -/
def GetTaskByIDWithHistory (taskID : Int) (st : Store) : Except TMError Task :=
  match (st.tasks.filter fun r => decide (r.id = taskID)) ++
        (st.taskHistory.filter fun r => decide (r.id = taskID)) with
  | [] => .error .taskNotFound
  | r :: _ => .ok (row2Task r)

/-- Total Meta byte size of one subtask batch (the running `size` of the
splitSubtasks loop). -/
def batchMetaSize (b : List Subtask) : Nat :=
  (b.map (fun s => s.meta.length)).sum

/-- A sample in-memory subtask used by the concrete example stores. -/
def exSubtask : Subtask :=
  { id := 0
    step := 1
    taskID := 1
    subtaskType := 0
    execID := "n1"
    state := .pending
    concurrency := 1
    createTime := 0
    ordinal := some 1
    startTime := none
    updateTime := none
    meta := [1, 2, 3]
    summary := "" }

/-- A live subtask row owned by node n1 that already reached the terminal
state succeed. -/
def exSucceedRow : SubtaskRow :=
  { subtaskInsertRow 7 100 exSubtask with state := .succeed }

/-- A store holding just the succeed subtask row. -/
def exSubtaskStore : Store :=
  { tasks := []
    taskHistory := []
    subtasks := [exSucceedRow]
    subtaskHistory := []
    nodes := []
    nextTaskID := 1
    nextSubtaskID := 101 }

/-- A live task row at (pending, step 0) used by the concrete example
stores. -/
def exTaskRow : TaskRow :=
  { id := 1
    key := "job1"
    taskType := "example"
    state := .pending
    step := 0
    priority := 512
    concurrency := 4
    createTime := 0
    startTime := none
    stateUpdateTime := none
    meta := [7]
    schedulerID := ""
    error := none }

/-- The in-memory view of `exTaskRow` as read by a scheduler. -/
def exTask : Task :=
  { id := 1
    key := "job1"
    taskType := "example"
    state := .pending
    step := 0
    priority := 512
    concurrency := 4
    createTime := 0
    startTime := none
    stateUpdateTime := none
    meta := [7]
    schedulerID := ""
    error := none }

/-- A store holding just the pending task row, with no subtasks yet. -/
def exSwitchStore : Store :=
  { tasks := [exTaskRow]
    taskHistory := []
    subtasks := []
    subtaskHistory := []
    nodes := []
    nextTaskID := 2
    nextSubtaskID := 1 }

/-- The ordering key of taskOrderLE transported to decoded tasks (the
basic columns priority, create time, id survive row2TaskBasic). -/
def taskOrderLEBasic (a b : Task) : Bool :=
  decide (a.priority < b.priority ∨
    (a.priority = b.priority ∧ (a.createTime < b.createTime ∨
      (a.createTime = b.createTime ∧ a.id ≤ b.id))))

/-- A live task row sitting in the non-terminal state paused. -/
def exPausedRow : TaskRow :=
  { exTaskRow with id := 9, state := .paused }

/-- A store whose only live task is paused. -/
def exPausedStore : Store :=
  { exSwitchStore with tasks := [exPausedRow] }

/-- The in-memory task of `exSwitchStore` after the scheduler decided to
move it to running. -/
def exRunningTask : Task :=
  { exTask with state := .running }

/-- A failed subtask row whose stored error bytes are malformed. -/
def exBadErrRow : SubtaskRow :=
  { subtaskInsertRow 7 200 exSubtask with state := .failed, error := some (.malformed "boom") }

/-- A store whose only subtask is the failed row with malformed error
bytes. -/
def exBadErrStore : Store :=
  { exSubtaskStore with subtasks := [exBadErrRow] }

/-- A task row whose stored error bytes are malformed. -/
def exBadErrTaskRow : TaskRow :=
  { exTaskRow with error := some (.malformed "boom") }

/-- A live task row that reached the terminal state succeed at step 2. -/
def exHistTaskRow : TaskRow :=
  { exTaskRow with state := .succeed, step := 2 }

/-- The in-memory view of `exHistTaskRow` with redacted meta, as handed to
TransferTasks2History. -/
def exDoneTask : Task :=
  { exTask with state := .succeed, step := 2, meta := [9] }

/-- A store with the finished task and one finished subtask, ready to be
moved to the history tables. -/
def exHistStore : Store :=
  { tasks := [exHistTaskRow]
    taskHistory := []
    subtasks := [exSucceedRow]
    subtaskHistory := []
    nodes := []
    nextTaskID := 2
    nextSubtaskID := 101 }

/-- A general-purpose registry node with eight CPUs. -/
def exNode : ManagedNode :=
  { id := "h1", role := "", cpuCount := 8 }

/-- A store whose registry holds just `exNode` and no tasks yet. -/
def exNodeStore : Store :=
  { tasks := []
    taskHistory := []
    subtasks := []
    subtaskHistory := []
    nodes := [exNode]
    nextTaskID := 1
    nextSubtaskID := 1 }

/-- A live task row that another scheduler already advanced to
(running, step 1). -/
def exMismatchRow : TaskRow :=
  { exTaskRow with state := .running, step := 1 }

/-- A store whose task row no longer matches the in-memory (pending, 0)
view held by a stale scheduler. -/
def exMismatchStore : Store :=
  { exSwitchStore with tasks := [exMismatchRow] }

-- ====================  Theorems  ====================

theorem splitSubtasksAux_flatten (maxSize : Nat) :
    ∀ (rest curr : List Subtask) (size : Nat),
      (splitSubtasksAux maxSize curr size rest).flatten = curr ++ rest
  | [], curr, size => by
    unfold splitSubtasksAux
    split
    · simp
    · next h =>
      have : curr = [] := by
        cases curr with
        | nil => rfl
        | cons a l => simp at h
      simp [this]
  | s :: rest, curr, size => by
    unfold splitSubtasksAux
    split
    · simp [splitSubtasksAux_flatten maxSize rest [s] s.meta.length]
    · simp [splitSubtasksAux_flatten maxSize rest (curr ++ [s]) (size + s.meta.length)]

theorem splitSubtasksAux_batch_size (maxSize : Nat) :
    ∀ (rest curr : List Subtask) (size : Nat),
      size = batchMetaSize curr →
      (2 ≤ curr.length → size ≤ maxSize) →
      ∀ b ∈ splitSubtasksAux maxSize curr size rest,
        2 ≤ b.length → batchMetaSize b ≤ maxSize
  | [], curr, size => by
    intro hsize hcurr b hb hlen
    unfold splitSubtasksAux at hb
    split at hb
    · simp at hb
      subst hb
      exact hsize ▸ hcurr hlen
    · simp at hb
  | s :: rest, curr, size => by
    intro hsize hcurr b hb hlen
    unfold splitSubtasksAux at hb
    split at hb
    · rcases List.mem_cons.mp hb with rfl | hb'
      · exact hsize ▸ hcurr hlen
      · refine splitSubtasksAux_batch_size maxSize rest [s] s.meta.length ?_ ?_ b hb' hlen
        · simp [batchMetaSize]
        · intro h2
          simp at h2
    · next hfits =>
      refine splitSubtasksAux_batch_size maxSize rest (curr ++ [s]) (size + s.meta.length)
        ?_ ?_ b hb hlen
      · simp [batchMetaSize, hsize]
      · intro _
        omega

/-- C9: the concatenation of the batches returned by splitSubtasks is the
input subtask list in order — no subtask is lost or duplicated — and every
batch holding more than one subtask has total Meta byte size at most
min(maxSubtaskBatchSize, the configured transaction size limit). -/
theorem splitSubtasks_no_loss_and_bounded (txnLimit : Nat) (subtasks : List Subtask) :
    (splitSubtasks txnLimit subtasks).flatten = subtasks ∧
    ∀ b ∈ splitSubtasks txnLimit subtasks,
      1 < b.length → batchMetaSize b ≤ min txnLimit maxSubtaskBatchSize :=
  ⟨by simpa using splitSubtasksAux_flatten (min txnLimit maxSubtaskBatchSize) subtasks [] 0,
   fun b hb hlen =>
     splitSubtasksAux_batch_size (min txnLimit maxSubtaskBatchSize) subtasks [] 0
       (by simp [batchMetaSize]) (by intro h; simp at h) b hb hlen⟩

theorem startSubtask_eq (now : Nat) (subtaskID : Int) (execID : String) (st : Store) :
    StartSubtask now subtaskID execID st =
      if (st.subtasks.countP fun r =>
            (decide (r.id = subtaskID ∧ r.execID = execID)) &&
              decide (applyStartSubtask now r ≠ r)) = 0 then
        (st, some .subtaskNotFound)
      else
        ({ st with
           subtasks := st.subtasks.map fun r =>
             if r.id = subtaskID ∧ r.execID = execID then applyStartSubtask now r else r },
         none) := by
  unfold StartSubtask withNewTxn
  beta_reduce
  by_cases h : (st.subtasks.countP fun r =>
      (decide (r.id = subtaskID ∧ r.execID = execID)) &&
        decide (applyStartSubtask now r ≠ r)) = 0
  · rw [if_pos h, if_pos h]
  · rw [if_neg h, if_neg h]

/-- C7: StartSubtask(subtaskID, execID) fails with ErrSubtaskNotFound and
leaves the store untouched whenever no live subtask row carries this id
with this exec owner — in particular when the row exists but its current
exec owner is a different executor, or when no row with this id exists —
regardless of the row's state. -/
theorem startSubtask_owner_guard (now : Nat) (subtaskID : Int) (execID : String) (st : Store)
    (h : ∀ r ∈ st.subtasks, r.id = subtaskID → r.execID ≠ execID) :
    StartSubtask now subtaskID execID st = (st, some .subtaskNotFound) := by
  have hcnt : (st.subtasks.countP fun r =>
      (decide (r.id = subtaskID ∧ r.execID = execID)) &&
        decide (applyStartSubtask now r ≠ r)) = 0 := by
    refine List.countP_eq_zero.mpr fun r hr => ?_
    simp only [Bool.and_eq_true, decide_eq_true_eq, not_and]
    rintro ⟨hid, hexec⟩
    exact absurd hexec (h r hr hid)
  rw [startSubtask_eq, if_pos hcnt]

/-- Witness for C7: starting the subtask of `exSubtaskStore` (owned by n1)
as executor n2 fails with subtaskNotFound and leaves the store unchanged. -/
theorem startSubtask_owner_guard_witness :
    StartSubtask 9 100 "n2" exSubtaskStore = (exSubtaskStore, some .subtaskNotFound) :=
  startSubtask_owner_guard 9 100 "n2" exSubtaskStore (by decide)

/-- C10: the StartSubtask update matches only on (id, exec_id), with no
condition on the row's state: every row with this id and exec owner ends
up at its running image with the fresh start and update times — even a row
already in a terminal state — and whenever the row was not already
running the call reports no error. -/
theorem startSubtask_ignores_state (now : Nat) (subtaskID : Int) (execID : String)
    (st : Store) (r : SubtaskRow) (hr : r ∈ st.subtasks)
    (hid : r.id = subtaskID) (hexec : r.execID = execID) :
    applyStartSubtask now r ∈ (StartSubtask now subtaskID execID st).1.subtasks ∧
    (r.state ≠ .running → (StartSubtask now subtaskID execID st).2 = none) := by
  rw [startSubtask_eq]
  by_cases hA : (st.subtasks.countP fun x =>
      (decide (x.id = subtaskID ∧ x.execID = execID)) &&
        decide (applyStartSubtask now x ≠ x)) = 0
  · have hfix : applyStartSubtask now r = r := by
      have := List.countP_eq_zero.mp hA r hr
      simp only [Bool.and_eq_true, decide_eq_true_eq, not_and] at this
      by_contra hne
      exact this ⟨hid, hexec⟩ hne
    refine ⟨?_, ?_⟩
    · simp only [if_pos hA]
      exact hfix ▸ hr
    · intro hstate
      exfalso
      apply hstate
      have := congrArg SubtaskRow.state hfix
      simpa [applyStartSubtask] using this.symm
  · refine ⟨?_, ?_⟩
    · simp only [if_neg hA]
      have hmem := List.mem_map_of_mem
        (fun x => if x.id = subtaskID ∧ x.execID = execID then applyStartSubtask now x else x) hr
      simpa [hid, hexec] using hmem
    · intro _
      rw [if_neg hA]

/-- Witness for C10: starting the succeed subtask of `exSubtaskStore` as
its owner n1 turns the row to running with fresh times and reports no
error. -/
theorem startSubtask_ignores_state_witness :
    applyStartSubtask 9 exSucceedRow ∈ (StartSubtask 9 100 "n1" exSubtaskStore).1.subtasks ∧
    (StartSubtask 9 100 "n1" exSubtaskStore).2 = none :=
  ⟨(startSubtask_ignores_state 9 100 "n1" exSubtaskStore exSucceedRow (by decide) (by decide)
      (by decide)).1,
   (startSubtask_ignores_state 9 100 "n1" exSubtaskStore exSucceedRow (by decide) (by decide)
      (by decide)).2 (by decide)⟩

theorem map_eq_self_of_eq {α : Type} (l : List α) (f : α → α) (h : ∀ x ∈ l, f x = x) :
    l.map f = l :=
  (List.map_congr_left h).trans l.map_id

theorem updateTaskStateStep_fst (now : Nat) (t : Task) (S' : TaskState) (P' : Int) (st : Store) :
    (updateTaskStateStep now t S' P' st).1 =
      { st with
        tasks := st.tasks.map fun r =>
          if taskStepMatch t r then applyTaskStepUpdate now t S' P' r else r } := rfl

theorem updateTaskStateStep_snd (now : Nat) (t : Task) (S' : TaskState) (P' : Int) (st : Store) :
    (updateTaskStateStep now t S' P' st).2 =
      st.tasks.countP fun r =>
        taskStepMatch t r && decide (applyTaskStepUpdate now t S' P' r ≠ r) := rfl

theorem switchTaskStep_eq (now : Nat) (t : Task) (S' : TaskState) (P' : Int)
    (subs : List Subtask) (st : Store) :
    SwitchTaskStep now t S' P' subs st =
      if (updateTaskStateStep now t S' P' st).2 = 0 then
        ((updateTaskStateStep now t S' P' st).1, none)
      else
        (insertSubtasks now subs (updateTaskStateStep now t S' P' st).1, none) := by
  unfold SwitchTaskStep withNewTxn
  beta_reduce
  by_cases h : (updateTaskStateStep now t S' P' st).2 = 0
  · rw [if_pos h]
  · rw [if_neg h]

theorem insertSubtasks_eq (now : Nat) (subs : List Subtask) (st : Store) :
    insertSubtasks now subs st =
      { st with
        subtasks := st.subtasks ++ insertRows now st.nextSubtaskID subs
        nextSubtaskID := st.nextSubtaskID + subs.length } := by
  unfold insertSubtasks
  split
  · next h =>
    have hnil : subs = [] := by simpa using h
    subst hnil
    simp [insertRows]
  · rfl

theorem insertRows_mem_char (now : Nat) :
    ∀ (subs : List Subtask) (n : Int) (r : SubtaskRow), r ∈ insertRows now n subs →
      ∃ s ∈ subs, ∃ i : Int, r = subtaskInsertRow now i s
  | [], n, r => by simp [insertRows]
  | s :: rest, n, r => by
    intro hr
    rcases List.mem_cons.mp hr with rfl | hr'
    · exact ⟨s, List.mem_cons_self s rest, n, rfl⟩
    · rcases insertRows_mem_char now rest (n + 1) r hr' with ⟨s', hs', i, hi⟩
      exact ⟨s', List.mem_cons_of_mem s hs', i, hi⟩

theorem insertRows_state_pending (now : Nat) (n : Int) (subs : List Subtask) :
    ∀ r ∈ insertRows now n subs, r.state = .pending := by
  intro r hr
  rcases insertRows_mem_char now subs n r hr with ⟨s, _, i, rfl⟩
  rfl

theorem insertRows_filter (now : Nat) (tid P' : Int) (subs : List Subtask) (n : Int)
    (hsubs : ∀ s ∈ subs, s.taskID = tid ∧ s.step = P') :
    ((insertRows now n subs).filter fun r => decide (r.taskKey = tid ∧ r.step = P')) =
      insertRows now n subs := by
  apply List.filter_eq_self.mpr
  intro r hr
  rcases insertRows_mem_char now subs n r hr with ⟨s, hs, i, rfl⟩
  simpa [subtaskInsertRow] using hsubs s hs

/-- C1: for a task currently at (state S, step P), SwitchTaskStep to
(S', P') conditionally updates the task row predicated on
(id = task.ID, state = S, step = P); the first call commits the row at
(S', P') together with exactly the given subtasks, all inserted pending
for step P', and a second call with the same target and subtask set sees
zero affected rows and commits as a pure no-op, so exactly one set of
subtasks exists for step P' and the task stays at (S', P'). -/
theorem switchTaskStep_idempotent (now1 now2 : Nat) (t : Task) (S' : TaskState) (P' : Int)
    (subs : List Subtask) (st : Store)
    (hne : ¬(S' = t.state ∧ P' = t.step))
    (hrows : ∀ r ∈ st.tasks, r.id = t.id → r.state = t.state ∧ r.step = t.step)
    (hex : ∃ r ∈ st.tasks, r.id = t.id)
    (hfresh : ∀ r ∈ st.subtasks, ¬(r.taskKey = t.id ∧ r.step = P'))
    (hsubs : ∀ s ∈ subs, s.taskID = t.id ∧ s.step = P') :
    (SwitchTaskStep now1 t S' P' subs st).2 = none ∧
    (∀ r ∈ (SwitchTaskStep now1 t S' P' subs st).1.tasks, r.id = t.id →
        r.state = S' ∧ r.step = P') ∧
    ((SwitchTaskStep now1 t S' P' subs st).1.subtasks.filter fun r =>
        decide (r.taskKey = t.id ∧ r.step = P')) = insertRows now1 st.nextSubtaskID subs ∧
    (∀ r ∈ insertRows now1 st.nextSubtaskID subs, r.state = .pending) ∧
    SwitchTaskStep now2 t S' P' subs (SwitchTaskStep now1 t S' P' subs st).1 =
      ((SwitchTaskStep now1 t S' P' subs st).1, none) := by
  obtain ⟨r0, hr0, hid0⟩ := hex
  have hm0 : taskStepMatch t r0 = true := by
    simp [taskStepMatch, hid0, (hrows r0 hr0 hid0).1, (hrows r0 hr0 hid0).2]
  have hchanged0 : applyTaskStepUpdate now1 t S' P' r0 ≠ r0 := by
    intro heq
    have hs : (applyTaskStepUpdate now1 t S' P' r0).state = r0.state :=
      congrArg TaskRow.state heq
    have hp : (applyTaskStepUpdate now1 t S' P' r0).step = r0.step :=
      congrArg TaskRow.step heq
    simp only [applyTaskStepUpdate] at hs hp
    exact hne ⟨hs.trans (hrows r0 hr0 hid0).1, hp.trans (hrows r0 hr0 hid0).2⟩
  have hpos : ¬(updateTaskStateStep now1 t S' P' st).2 = 0 := by
    rw [updateTaskStateStep_snd]
    intro h0
    have hno := List.countP_eq_zero.mp h0 r0 hr0
    simp only [Bool.and_eq_true, decide_eq_true_eq, not_and] at hno
    exact hno hm0 hchanged0
  have hcall1 : SwitchTaskStep now1 t S' P' subs st =
      (insertSubtasks now1 subs (updateTaskStateStep now1 t S' P' st).1, none) := by
    rw [switchTaskStep_eq, if_neg hpos]
  have htasks : (SwitchTaskStep now1 t S' P' subs st).1.tasks =
      st.tasks.map (fun r =>
        if taskStepMatch t r then applyTaskStepUpdate now1 t S' P' r else r) := by
    rw [hcall1, insertSubtasks_eq]
    rfl
  have hsubtasks : (SwitchTaskStep now1 t S' P' subs st).1.subtasks =
      st.subtasks ++ insertRows now1 st.nextSubtaskID subs := by
    rw [hcall1, insertSubtasks_eq]
    rfl
  have hnomatch : ∀ x ∈ (SwitchTaskStep now1 t S' P' subs st).1.tasks,
      ¬taskStepMatch t x = true := by
    intro x hx hmx
    rw [htasks] at hx
    rcases List.mem_map.mp hx with ⟨r, hr, hfr⟩
    by_cases hm : taskStepMatch t r = true
    · rw [if_pos hm] at hfr
      subst hfr
      simp only [taskStepMatch, applyTaskStepUpdate, decide_eq_true_eq] at hmx
      exact hne ⟨hmx.2.1, hmx.2.2⟩
    · rw [if_neg hm] at hfr
      subst hfr
      exact hm hmx
  refine ⟨by rw [hcall1], ?_, ?_, insertRows_state_pending now1 st.nextSubtaskID subs, ?_⟩
  · rw [htasks]
    intro r' hmem hid
    rcases List.mem_map.mp hmem with ⟨r, hr, hfr⟩
    by_cases hm : taskStepMatch t r = true
    · rw [if_pos hm] at hfr
      subst hfr
      exact ⟨rfl, rfl⟩
    · rw [if_neg hm] at hfr
      subst hfr
      have := hrows r hr hid
      simp [taskStepMatch, hid, this.1, this.2] at hm
  · rw [hsubtasks, List.filter_append,
      insertRows_filter now1 t.id P' subs st.nextSubtaskID hsubs]
    have hnil : (st.subtasks.filter fun r => decide (r.taskKey = t.id ∧ r.step = P')) = [] := by
      apply List.filter_eq_nil_iff.mpr
      intro r hr
      simpa using hfresh r hr
    rw [hnil, List.nil_append]
  · have hz : (updateTaskStateStep now2 t S' P' (SwitchTaskStep now1 t S' P' subs st).1).2
        = 0 := by
      rw [updateTaskStateStep_snd]
      apply List.countP_eq_zero.mpr
      intro x hx
      simp only [Bool.and_eq_true, not_and]
      intro hmx
      exact absurd hmx (hnomatch x hx)
    have hfst : (updateTaskStateStep now2 t S' P' (SwitchTaskStep now1 t S' P' subs st).1).1
        = (SwitchTaskStep now1 t S' P' subs st).1 := by
      rw [updateTaskStateStep_fst]
      rw [map_eq_self_of_eq _ _ fun x hx => if_neg (hnomatch x hx)]
    rw [switchTaskStep_eq, if_pos hz, hfst]

/-- Witness for C1: switching the pending task of `exSwitchStore` to
(running, step 1) twice with one subtask creates that subtask once, moves
the task to (running, 1), and makes the second call a no-op. -/
theorem switchTaskStep_idempotent_witness :
    (SwitchTaskStep 3 exTask .running 1 [exSubtask] exSwitchStore).2 = none ∧
    (∀ r ∈ (SwitchTaskStep 3 exTask .running 1 [exSubtask] exSwitchStore).1.tasks,
        r.id = exTask.id → r.state = .running ∧ r.step = 1) ∧
    ((SwitchTaskStep 3 exTask .running 1 [exSubtask] exSwitchStore).1.subtasks.filter fun r =>
        decide (r.taskKey = exTask.id ∧ r.step = 1)) =
      insertRows 3 exSwitchStore.nextSubtaskID [exSubtask] ∧
    (∀ r ∈ insertRows 3 exSwitchStore.nextSubtaskID [exSubtask], r.state = .pending) ∧
    SwitchTaskStep 5 exTask .running 1 [exSubtask]
        (SwitchTaskStep 3 exTask .running 1 [exSubtask] exSwitchStore).1 =
      ((SwitchTaskStep 3 exTask .running 1 [exSubtask] exSwitchStore).1, none) :=
  switchTaskStep_idempotent 3 5 exTask .running 1 [exSubtask] exSwitchStore
    (by decide) (by decide) ⟨exTaskRow, by decide, by decide⟩ (by decide) (by decide)

/-- Witness for C9: splitting two small subtasks under a 10-byte limit
keeps them, in order, in one batch whose size honours the bound. -/
theorem splitSubtasks_no_loss_and_bounded_witness :
    (splitSubtasks 10 [exSubtask, exSubtask]).flatten = [exSubtask, exSubtask] ∧
    batchMetaSize [exSubtask, exSubtask] ≤ min 10 maxSubtaskBatchSize :=
  ⟨(splitSubtasks_no_loss_and_bounded 10 [exSubtask, exSubtask]).1,
   (splitSubtasks_no_loss_and_bounded 10 [exSubtask, exSubtask]).2 [exSubtask, exSubtask]
     (by decide) (by decide)⟩

theorem taskOrderLE_trans :
    ∀ a b c : TaskRow, taskOrderLE a b → taskOrderLE b c → taskOrderLE a c := by
  intro a b c hab hbc
  simp only [taskOrderLE, decide_eq_true_eq] at hab hbc ⊢
  omega

theorem taskOrderLE_total : ∀ a b : TaskRow, taskOrderLE a b || taskOrderLE b a := by
  intro a b
  simp only [taskOrderLE, Bool.or_eq_true, decide_eq_true_eq]
  omega

/-- Counterexample for C2: a task in the non-terminal state paused is not
returned by GetTopUnfinishedTasks; the IN list of the query omits paused,
so the state set of the claim does not match the code. -/
theorem getTopUnfinishedTasks_misses_paused :
    exPausedRow ∈ exPausedStore.tasks ∧ exPausedRow.state = .paused ∧
    GetTopUnfinishedTasks exPausedStore = [] :=
  ⟨by decide, by decide, by
    simp [GetTopUnfinishedTasks, exPausedStore, exPausedRow, exTaskRow, exSwitchStore,
      topUnfinishedStates]⟩

/-- C2 (amended): GetTopUnfinishedTasks returns the tasks whose state lies
in its queried list — pending, running, reverting, cancelling, pausing,
resuming; paused is excluded — ordered by (priority asc, create time asc,
id asc) and limited to twice the maximum-concurrent-task constant. -/
theorem getTopUnfinishedTasks_spec (st : Store) :
    (GetTopUnfinishedTasks st).length =
      min (MaxConcurrentTask * 2)
        (st.tasks.countP fun r => decide (r.state ∈ topUnfinishedStates)) ∧
    (∀ x ∈ GetTopUnfinishedTasks st, ∃ r ∈ st.tasks,
        r.state ∈ topUnfinishedStates ∧ x = row2TaskBasic r) ∧
    (GetTopUnfinishedTasks st).Pairwise fun a b => taskOrderLEBasic a b := by
  refine ⟨?_, ?_, ?_⟩
  · simp [GetTopUnfinishedTasks, List.length_take,
      (List.mergeSort_perm _ taskOrderLE).length_eq, List.countP_eq_length_filter]
  · intro x hx
    simp only [GetTopUnfinishedTasks, List.mem_map] at hx
    obtain ⟨r, hrtake, rfl⟩ := hx
    have hrsort := List.take_subset _ _ hrtake
    have hrfilter := (List.mergeSort_perm _ taskOrderLE).subset hrsort
    have := List.mem_filter.mp hrfilter
    exact ⟨r, this.1, by simpa using this.2, rfl⟩
  · have hsorted : ((st.tasks.filter fun r =>
        decide (r.state ∈ topUnfinishedStates)).mergeSort taskOrderLE).Pairwise
          (fun a b => taskOrderLE a b) :=
      List.sorted_mergeSort taskOrderLE_trans taskOrderLE_total _
    have htake := hsorted.sublist (List.take_sublist (MaxConcurrentTask * 2) _)
    exact List.Pairwise.map _ (fun a b hle => by
      simpa [taskOrderLEBasic, taskOrderLE, row2TaskBasic] using hle) htake

/-- Witness for C2 (amended): the amended characterization applied to the
one-row pending store. -/
theorem getTopUnfinishedTasks_spec_witness :
    (GetTopUnfinishedTasks exSwitchStore).length =
      min (MaxConcurrentTask * 2)
        (exSwitchStore.tasks.countP fun r => decide (r.state ∈ topUnfinishedStates)) ∧
    (∀ x ∈ GetTopUnfinishedTasks exSwitchStore, ∃ r ∈ exSwitchStore.tasks,
        r.state ∈ topUnfinishedStates ∧ x = row2TaskBasic r) ∧
    (GetTopUnfinishedTasks exSwitchStore).Pairwise fun a b => taskOrderLEBasic a b :=
  getTopUnfinishedTasks_spec exSwitchStore

/-- C3: evaluating UpdateTaskAndAddSubTasks where the bulk subtask insert
statement fails (insertOK = false): the call reports no error and commits
the task-row update while inserting no subtask — the failing statement is
swallowed by the `if err != nil \x7b return nil \x7d` slip instead of
aborting the transaction, so the task row and its subtasks do not commit
together. -/
theorem updateTaskAndAddSubTasks_swallows_insert_error :
    UpdateTaskAndAddSubTasks 5 false false exRunningTask [exSubtask] .pending exSwitchStore =
      ({ exSwitchStore with tasks := [applyLegacyUpdate 5 exRunningTask exTaskRow] },
       true, none) ∧
    applyLegacyUpdate 5 exRunningTask exTaskRow ≠ exTaskRow ∧
    (UpdateTaskAndAddSubTasks 5 false false exRunningTask [exSubtask] .pending
        exSwitchStore).1.subtasks = [] := by
  refine ⟨?_, by decide, ?_⟩ <;> rfl

theorem collectErrs_isError :
    ∀ rows : List SubtaskRow,
      (∃ r ∈ rows, ∃ raw, r.error = some (.malformed raw)) →
      ∃ e, collectErrs rows = .error e
  | [] => by simp
  | r :: rest => by
    rintro ⟨r', hr', raw, herr⟩
    rcases List.mem_cons.mp hr' with rfl | hmem
    · exact ⟨"unmarshal subtask error", by simp [collectErrs, herr, unmarshalErr]⟩
    · rcases collectErrs_isError rest ⟨r', hmem, raw, herr⟩ with ⟨e, he⟩
      cases hre : r.error with
      | none => exact ⟨e, by simp [collectErrs, hre, he, Except.map]⟩
      | some b =>
        by_cases hb : b = .empty
        · exact ⟨e, by simp [collectErrs, hre, hb, he, Except.map]⟩
        · cases hu : unmarshalErr b with
          | none => exact ⟨"unmarshal subtask error", by simp [collectErrs, hre, hb, hu]⟩
          | some msg => exact ⟨e, by simp [collectErrs, hre, hb, hu, he, Except.map]⟩

/-- Counterexample for C4: with a failed subtask row holding malformed
stored error bytes, CollectSubTaskError fails the whole read with the
deserialization error — it does not degrade to a plain-text wrapped error
value as the claim asserts for every read path. -/
theorem collectSubTaskError_fails_on_malformed :
    exBadErrStore.subtasks.map (fun r => r.error) = [some (.malformed "boom")] ∧
    CollectSubTaskError 1 exBadErrStore = .error "unmarshal subtask error" :=
  ⟨rfl, rfl⟩

/-- C4 (amended): row2Task degrades malformed stored error bytes to a
plain-text wrapped error value instead of failing the read, but
CollectSubTaskError does not: whenever some failed or canceled subtask
row of the task stores malformed error bytes, that whole read fails with
the deserialization error. -/
theorem errorCodec_degrade_asymmetry (r : TaskRow) (raw : String) (st : Store)
    (taskID : Int) (sr : SubtaskRow) (hr : r.error = some (.malformed raw))
    (hsr : sr ∈ st.subtasks) (hkey : sr.taskKey = taskID)
    (hstate : sr.state = .failed ∨ sr.state = .canceled)
    (herr : ∃ raw', sr.error = some (.malformed raw')) :
    (row2Task r).error = some (.plain raw) ∧
    ∃ e, CollectSubTaskError taskID st = .error e := by
  constructor
  · simp [row2Task, hr, unmarshalErr, ErrBytes.asString]
  · apply collectErrs_isError
    exact ⟨sr, List.mem_filter.mpr ⟨hsr, by simp [hkey, hstate]⟩, herr⟩

/-- Witness for C4 (amended): the degrade / fail asymmetry observed on the
concrete malformed-bytes fixtures. -/
theorem errorCodec_degrade_asymmetry_witness :
    (row2Task exBadErrTaskRow).error = some (.plain "boom") ∧
    ∃ e, CollectSubTaskError 1 exBadErrStore = .error e :=
  errorCodec_degrade_asymmetry exBadErrTaskRow "boom" exBadErrStore 1 exBadErrRow
    rfl (by decide) (by decide) (by decide) ⟨"boom", rfl⟩

/-- C5: CreateTask admission control: no managed nodes fails with
NoManagedNodes; managed nodes all reporting zero CPU count fail with
NoUsableCapacity; and with k the CPU count of the first managed node (in
registry order) with positive count, creation succeeds iff the requested
concurrency is at most k, in which case exactly one task row is appended,
in state pending at the initial step. -/
theorem createTask_capacity_gate (now : Nat) (key taskType : String) (c : Int)
    (meta : List Nat) (st : Store) :
    (getManagedNodes st = [] →
      CreateTaskWithSession now key taskType c meta st = .error .noManagedNodes) ∧
    (getManagedNodes st ≠ [] → (∀ n ∈ getManagedNodes st, n.cpuCount = 0) →
      CreateTaskWithSession now key taskType c meta st = .error .noUsableCapacity) ∧
    (∀ n, (getManagedNodes st).find? (fun m => decide (m.cpuCount > 0)) = some n →
      ((∃ st2 id, CreateTaskWithSession now key taskType c meta st = .ok (st2, id)) ↔
        c ≤ n.cpuCount) ∧
      (c ≤ n.cpuCount →
        CreateTaskWithSession now key taskType c meta st =
          .ok ({ st with
                 tasks := st.tasks ++ [createTaskRow now key taskType c meta st.nextTaskID]
                 nextTaskID := st.nextTaskID + 1 }, st.nextTaskID) ∧
        (createTaskRow now key taskType c meta st.nextTaskID).state = .pending ∧
        (createTaskRow now key taskType c meta st.nextTaskID).step = StepInit)) := by
  refine ⟨?_, ?_, ?_⟩
  · intro h
    simp [CreateTaskWithSession, getCPUCountOfManagedNode, h]
  · intro hne hall
    have hemp : (getManagedNodes st).isEmpty = false := by
      cases h : getManagedNodes st with
      | nil => exact absurd h hne
      | cons a l => rfl
    have hfind : (getManagedNodes st).find? (fun n => decide (n.cpuCount > 0)) = none :=
      List.find?_eq_none.mpr fun n hn => by simp [hall n hn]
    simp [CreateTaskWithSession, getCPUCountOfManagedNode, hemp, hfind]
  · intro n hfind
    have hemp : (getManagedNodes st).isEmpty = false := by
      cases h : getManagedNodes st with
      | nil => rw [h] at hfind; simp at hfind
      | cons a l => rfl
    have hccm : getCPUCountOfManagedNode st = .ok n.cpuCount := by
      simp [getCPUCountOfManagedNode, hemp, hfind]
    constructor
    · constructor
      · rintro ⟨st2, tid, hok⟩
        by_contra hc
        push_neg at hc
        simp [CreateTaskWithSession, hccm, hc] at hok
      · intro hc
        refine ⟨{ st with
            tasks := st.tasks ++ [createTaskRow now key taskType c meta st.nextTaskID]
            nextTaskID := st.nextTaskID + 1 }, st.nextTaskID, ?_⟩
        simp [CreateTaskWithSession, hccm, not_lt.mpr hc]
    · intro hc
      exact ⟨by simp [CreateTaskWithSession, hccm, not_lt.mpr hc], rfl, rfl⟩

/-- Witness for C5: creating a task with concurrency 4 on a registry with
one 8-CPU node succeeds and appends one pending task row at the initial
step. -/
theorem createTask_capacity_gate_witness :
    CreateTaskWithSession 0 "job1" "example" 4 [] exNodeStore =
      .ok ({ exNodeStore with
             tasks := exNodeStore.tasks ++
               [createTaskRow 0 "job1" "example" 4 [] exNodeStore.nextTaskID]
             nextTaskID := exNodeStore.nextTaskID + 1 }, exNodeStore.nextTaskID) ∧
    (createTaskRow 0 "job1" "example" 4 [] exNodeStore.nextTaskID).state = .pending ∧
    (createTaskRow 0 "job1" "example" 4 [] exNodeStore.nextTaskID).step = StepInit :=
  ((createTask_capacity_gate 0 "job1" "example" 4 [] exNodeStore).2.2 exNode
    (by simp [getManagedNodes, getAllNodes, exNodeStore, exNode])).2 (by decide)

theorem splitSubtasks_flatten (txnLimit : Nat) (l : List Subtask) :
    (splitSubtasks txnLimit l).flatten = l := by
  simpa using splitSubtasksAux_flatten (min txnLimit maxSubtaskBatchSize) l [] 0

theorem insertRows_append (now : Nat) :
    ∀ (l1 l2 : List Subtask) (n : Int),
      insertRows now n (l1 ++ l2) = insertRows now n l1 ++ insertRows now (n + l1.length) l2
  | [], l2, n => by simp [insertRows]
  | s :: rest, l2, n => by
    show subtaskInsertRow now n s :: insertRows now (n + 1) (rest ++ l2) =
      (subtaskInsertRow now n s :: insertRows now (n + 1) rest) ++
        insertRows now (n + ((rest.length : Int) + 1)) l2
    rw [List.cons_append, insertRows_append now rest l2 (n + 1)]
    have harith : n + ((rest.length : Int) + 1) = n + 1 + (rest.length : Int) := by omega
    rw [harith]

theorem foldl_insertSubtasks (now : Nat) :
    ∀ (bs : List (List Subtask)) (st : Store),
      bs.foldl (fun acc b => insertSubtasks now b acc) st =
        { st with
          subtasks := st.subtasks ++ insertRows now st.nextSubtaskID bs.flatten
          nextSubtaskID := st.nextSubtaskID + bs.flatten.length }
  | [], st => by simp [insertRows]
  | b :: bs, st => by
    show bs.foldl (fun acc b => insertSubtasks now b acc) (insertSubtasks now b st) = _
    rw [foldl_insertSubtasks now bs (insertSubtasks now b st), insertSubtasks_eq]
    have hlen : (((b ++ bs.flatten).length : Nat) : Int) =
        (b.length : Int) + (bs.flatten.length : Int) := by simp
    show ({ st with
            subtasks := (st.subtasks ++ insertRows now st.nextSubtaskID b) ++
              insertRows now (st.nextSubtaskID + b.length) bs.flatten
            nextSubtaskID := st.nextSubtaskID + b.length + bs.flatten.length } : Store) =
      ({ st with
            subtasks := st.subtasks ++ insertRows now st.nextSubtaskID (b ++ bs.flatten)
            nextSubtaskID := st.nextSubtaskID + ((b ++ bs.flatten).length : Nat) } : Store)
    rw [insertRows_append now b bs.flatten st.nextSubtaskID, List.append_assoc, hlen, add_assoc]

theorem updateTaskStateStep_tasks (now : Nat) (t : Task) (S' : TaskState) (P' : Int)
    (st : Store) :
    (updateTaskStateStep now t S' P' st).1.tasks =
      st.tasks.map (fun r =>
        if taskStepMatch t r then applyTaskStepUpdate now t S' P' r else r) := rfl

theorem updateTaskStateStep_subtasks (now : Nat) (t : Task) (S' : TaskState) (P' : Int)
    (st : Store) :
    (updateTaskStateStep now t S' P' st).1.subtasks = st.subtasks := rfl

/-- Counterexample for C6: when the task row no longer matches the
in-memory (state, step) of the caller, the final task-row update of
SwitchTaskStepInBatch changes nothing — it is the same predicated
conditional update, not an unconditional one — yet the call still
reports no error. -/
theorem switchTaskStepInBatch_not_unconditional :
    (SwitchTaskStepInBatch 5 exTask .succeed 2 [] 100 exMismatchStore).1.tasks =
      [exMismatchRow] ∧
    exMismatchRow.state ≠ .succeed ∧ exMismatchRow.step ≠ 2 ∧
    (SwitchTaskStepInBatch 5 exTask .succeed 2 [] 100 exMismatchStore).2 = none := by
  refine ⟨?_, by decide, by decide, ?_⟩ <;> rfl

/-- C6 (amended): SwitchTaskStepInBatch fails with UnstableSubtasks iff
the count of already-persisted subtask rows for (task, nextStep) exceeds
the given subtask list; otherwise it skips the first existingCount
entries, inserts the remainder (batched, without loss), and finally runs
the usual conditional task-row update — predicated on (id, state, step) —
without checking its affected rows. -/
theorem switchTaskStepInBatch_spec (now : Nat) (t : Task) (S' : TaskState) (P' : Int)
    (subs : List Subtask) (txnLimit : Nat) (st : Store) :
    ((SwitchTaskStepInBatch now t S' P' subs txnLimit st).2.isSome ↔
      existingSubtaskCnt t.id P' st > subs.length) ∧
    (existingSubtaskCnt t.id P' st > subs.length →
      SwitchTaskStepInBatch now t S' P' subs txnLimit st =
        (st, some (.unstableSubtasks subs.length (existingSubtaskCnt t.id P' st)))) ∧
    (existingSubtaskCnt t.id P' st ≤ subs.length →
      (SwitchTaskStepInBatch now t S' P' subs txnLimit st).1.subtasks =
        st.subtasks ++
          insertRows now st.nextSubtaskID (subs.drop (existingSubtaskCnt t.id P' st)) ∧
      (SwitchTaskStepInBatch now t S' P' subs txnLimit st).1.tasks =
        st.tasks.map fun r =>
          if taskStepMatch t r then applyTaskStepUpdate now t S' P' r else r) := by
  by_cases hgt : existingSubtaskCnt t.id P' st > subs.length
  · have heq : SwitchTaskStepInBatch now t S' P' subs txnLimit st =
        (st, some (.unstableSubtasks subs.length (existingSubtaskCnt t.id P' st))) := by
      unfold SwitchTaskStepInBatch
      rw [if_pos hgt]
    exact ⟨by rw [heq]; simp [hgt], fun _ => heq, fun hle => absurd hgt (not_lt.mpr hle)⟩
  · have heq : SwitchTaskStepInBatch now t S' P' subs txnLimit st =
        ((updateTaskStateStep now t S' P'
          ((splitSubtasks txnLimit (subs.drop (existingSubtaskCnt t.id P' st))).foldl
            (fun acc b => insertSubtasks now b acc) st)).1, none) := by
      unfold SwitchTaskStepInBatch
      rw [if_neg hgt]
    refine ⟨by rw [heq]; simp [hgt], fun h => absurd h hgt, fun hle => ⟨?_, ?_⟩⟩
    · rw [heq, updateTaskStateStep_subtasks, foldl_insertSubtasks]
      show st.subtasks ++ insertRows now st.nextSubtaskID
          (splitSubtasks txnLimit (subs.drop (existingSubtaskCnt t.id P' st))).flatten = _
      rw [splitSubtasks_flatten]
    · rw [heq, updateTaskStateStep_tasks, foldl_insertSubtasks]

/-- Witness for C6 (amended): with five subtask rows already persisted for
the target step and only three intended subtasks, the call fails with
UnstableSubtasks; with none persisted, three subtasks are inserted and
the predicated update applies. -/
theorem switchTaskStepInBatch_spec_witness :
    SwitchTaskStepInBatch 5 exTask .running 1 [] 100 exBadErrStore =
      (exBadErrStore, some (.unstableSubtasks 0 (existingSubtaskCnt exTask.id 1 exBadErrStore))) ∧
    (SwitchTaskStepInBatch 5 exTask .running 1 [exSubtask] 100 exSwitchStore).1.subtasks =
      exSwitchStore.subtasks ++
        insertRows 5 exSwitchStore.nextSubtaskID
          ([exSubtask].drop (existingSubtaskCnt exTask.id 1 exSwitchStore)) :=
  ⟨(switchTaskStepInBatch_spec 5 exTask .running 1 [] 100 exBadErrStore).2.1 (by decide),
   ((switchTaskStepInBatch_spec 5 exTask .running 1 [exSubtask] 100 exSwitchStore).2.2
     (by decide)).1⟩

theorem refreshMetaRow_id (now : Nat) (t : Task) (row : TaskRow) :
    (refreshMetaRow now t row).id = row.id := by
  unfold refreshMetaRow
  split <;> rfl

theorem transferSubtasks2History_tasks (k : Int) (s : Store) :
    (TransferSubtasks2HistoryWithSession k s).tasks = s.tasks := rfl

theorem transferSubtasks2History_taskHistory (k : Int) (s : Store) :
    (TransferSubtasks2HistoryWithSession k s).taskHistory = s.taskHistory := rfl

theorem transferSubtasks2History_subtasks (k : Int) (s : Store) :
    (TransferSubtasks2HistoryWithSession k s).subtasks =
      s.subtasks.filter fun r => decide (r.taskKey ≠ k) := rfl

theorem transferSubtasks2History_subtaskHistory (k : Int) (s : Store) :
    (TransferSubtasks2HistoryWithSession k s).subtaskHistory =
      s.subtaskHistory ++ s.subtasks.filter fun r => decide (r.taskKey = k) := rfl

theorem find?_filter_head {α : Type} (p : α → Bool) :
    ∀ (l : List α) (a : α), l.find? p = some a → ∃ tl, l.filter p = a :: tl
  | [], a => by simp
  | x :: l, a => by
    intro h
    by_cases hx : p x
    · rw [List.find?_cons_of_pos _ hx] at h
      cases h
      exact ⟨l.filter p, by rw [List.filter_cons_of_pos hx]⟩
    · rw [List.find?_cons_of_neg _ (by simpa using hx)] at h
      rcases find?_filter_head p l a h with ⟨tl, htl⟩
      exact ⟨tl, by rw [List.filter_cons_of_neg (by simpa using hx), htl]⟩

/-- C8: after TransferTasks2History([T]), the single transaction commits
with no error, GetTaskByID(T.ID) fails with TaskNotFound,
GetTaskByIDWithHistory(T.ID) returns a task with T's Meta, State and
Step, and every subtask of T is gone from the live subtask table and
present in the subtask history table. -/
theorem transferTasks2History_roundtrip (now : Nat) (t : Task) (st : Store) (r : TaskRow)
    (hfind : st.tasks.find? (fun row => decide (row.id = t.id)) = some r)
    (hstate : r.state = t.state) (hstep : r.step = t.step)
    (hnohist : ∀ h ∈ st.taskHistory, ¬h.id = t.id) :
    (TransferTasks2History now [t] st).2 = none ∧
    GetTaskByID t.id (TransferTasks2History now [t] st).1 = .error .taskNotFound ∧
    (∃ u, GetTaskByIDWithHistory t.id (TransferTasks2History now [t] st).1 = .ok u ∧
      u.meta = t.meta ∧ u.state = t.state ∧ u.step = t.step) ∧
    ((TransferTasks2History now [t] st).1.subtasks.filter fun sr =>
      decide (sr.taskKey = t.id)) = [] ∧
    (TransferTasks2History now [t] st).1.subtaskHistory =
      st.subtaskHistory ++ st.subtasks.filter fun sr => decide (sr.taskKey = t.id) := by
  have hres : TransferTasks2History now [t] st =
      (TransferSubtasks2HistoryWithSession t.id
        { st with
          taskHistory := st.taskHistory ++
            ((st.tasks.map (refreshMetaRow now t)).filter fun row =>
              decide (row.id ∈ [t.id]))
          tasks := (st.tasks.map (refreshMetaRow now t)).filter fun row =>
            decide (row.id ∉ [t.id]) }, none) := rfl
  have hrid : r.id = t.id := by simpa using List.find?_some hfind
  have hafter_tasks : (TransferTasks2History now [t] st).1.tasks =
      (st.tasks.map (refreshMetaRow now t)).filter (fun row => decide (row.id ∉ [t.id])) := by
    rw [hres, transferSubtasks2History_tasks]
  have hfindnone : ((TransferTasks2History now [t] st).1.tasks.find? fun row =>
      decide (row.id = t.id)) = none := by
    rw [hafter_tasks]
    apply List.find?_eq_none.mpr
    intro x hx
    have hx2 := (List.mem_filter.mp hx).2
    simp only [List.mem_singleton, decide_eq_true_eq] at hx2 ⊢
    exact hx2
  have hlivefilter : ((TransferTasks2History now [t] st).1.tasks.filter fun row =>
      decide (row.id = t.id)) = [] := by
    rw [hafter_tasks]
    apply List.filter_eq_nil_iff.mpr
    intro x hx
    have hx2 := (List.mem_filter.mp hx).2
    simp only [List.mem_singleton, decide_eq_true_eq] at hx2 ⊢
    exact hx2
  have hfilter_map : ((st.tasks.map (refreshMetaRow now t)).filter fun row =>
      decide (row.id ∈ [t.id])) =
      (st.tasks.filter fun row => decide (row.id = t.id)).map (refreshMetaRow now t) := by
    rw [List.filter_map]
    exact congrArg _ (List.filter_congr fun x hx => by
      simp [Function.comp, refreshMetaRow_id])
  rcases find?_filter_head _ st.tasks r hfind with ⟨tl, htl⟩
  have hafter_hist : (TransferTasks2History now [t] st).1.taskHistory =
      st.taskHistory ++ ((st.tasks.map (refreshMetaRow now t)).filter fun row =>
        decide (row.id ∈ [t.id])) := by
    rw [hres, transferSubtasks2History_taskHistory]
  have hscrut : ((TransferTasks2History now [t] st).1.taskHistory.filter fun row =>
      decide (row.id = t.id)) =
      refreshMetaRow now t r ::
        ((tl.map (refreshMetaRow now t)).filter fun row => decide (row.id = t.id)) := by
    rw [hafter_hist, List.filter_append]
    have hA : (st.taskHistory.filter fun row => decide (row.id = t.id)) = [] :=
      List.filter_eq_nil_iff.mpr fun x hx => by simpa using hnohist x hx
    rw [hA, List.nil_append, hfilter_map, htl, List.map_cons,
      List.filter_cons_of_pos (by simp [refreshMetaRow_id, hrid])]
  refine ⟨by rw [hres], ?_, ?_, ?_, ?_⟩
  · unfold GetTaskByID
    rw [hfindnone]
  · refine ⟨row2Task (refreshMetaRow now t r), ?_, ?_, ?_, ?_⟩
    · unfold GetTaskByIDWithHistory
      rw [hlivefilter, hscrut, List.nil_append]
    · simp [row2Task, row2TaskBasic, refreshMetaRow, hrid]
    · simpa [row2Task, row2TaskBasic, refreshMetaRow, hrid] using hstate
    · simpa [row2Task, row2TaskBasic, refreshMetaRow, hrid] using hstep
  · rw [hres, transferSubtasks2History_subtasks]
    apply List.filter_eq_nil_iff.mpr
    intro x hx
    have hx2 := (List.mem_filter.mp hx).2
    simp only [decide_eq_true_eq] at hx2 ⊢
    exact hx2
  · rw [hres, transferSubtasks2History_subtaskHistory]

/-- Witness for C8: archiving the finished task of `exHistStore` removes
it and its subtask from the live tables and makes it readable only
through the history union, with the redacted meta. -/
theorem transferTasks2History_roundtrip_witness :
    (TransferTasks2History 11 [exDoneTask] exHistStore).2 = none ∧
    GetTaskByID exDoneTask.id (TransferTasks2History 11 [exDoneTask] exHistStore).1 =
      .error .taskNotFound ∧
    (∃ u, GetTaskByIDWithHistory exDoneTask.id
        (TransferTasks2History 11 [exDoneTask] exHistStore).1 = .ok u ∧
      u.meta = exDoneTask.meta ∧ u.state = exDoneTask.state ∧ u.step = exDoneTask.step) ∧
    ((TransferTasks2History 11 [exDoneTask] exHistStore).1.subtasks.filter fun sr =>
      decide (sr.taskKey = exDoneTask.id)) = [] ∧
    (TransferTasks2History 11 [exDoneTask] exHistStore).1.subtaskHistory =
      exHistStore.subtaskHistory ++
        exHistStore.subtasks.filter fun sr => decide (sr.taskKey = exDoneTask.id) :=
  transferTasks2History_roundtrip 11 exDoneTask exHistStore exHistTaskRow
    (by decide) (by decide) (by decide) (by decide)

end DistTaskStorage
